import Mathlib

/-!
Time Window Shrinker: verification of the core algorithm.

Shallow embedding of `src/main.py` (the "Time Window Shrinker"). Clock
minutes and day counts are Python `int`s, embedded as `ℤ`; the fractional
per-day step and the cumulative offsets are Python `float`s, embedded as
exact rationals `ℚ` (all the claims under study are stated over exact real
arithmetic). Python's `%` and `//` on integers with a positive modulus agree
with Lean's `Int.emod` / `Int.ediv`, which are the `%` and `/` notations on
`ℤ`. Fallible Python functions (those that `raise ValueError`) are embedded
as `Except Err`-valued functions.
-/

namespace TimeWindowShrinker

/-- The error conditions raised by the core (`ValueError`s in the source),
named after the spec's error taxonomy (section 7). -/
inductive Err where
  | invalidDays
  | emptyWindow
  | invalidInterpretation
  | invalidRounding
deriving DecidableEq, Repr

/-- The constant `DAY_MIN = 24 * 60` from the source. -/
def DAY_MIN : ℤ := 24 * 60

/-- Function `round_half_away_from_zero` from the source:
`if value >= 0: floor(value + 0.5) else: ceil(value - 0.5)`. -/
def round_half_away_from_zero (value : ℚ) : ℤ :=
  if 0 ≤ value then ⌊value + 1/2⌋ else ⌈value - 1/2⌉

/-- Zero-padding of a nonnegative integer to two digits, as Python's
`f"{h:02d}"` renders the (always nonnegative here) hour and minute parts. -/
def pad2 (n : ℤ) : String :=
  (if n < 10 then "0" else "") ++ toString n

/-- Function `hhmm` from the source: reduce modulo `DAY_MIN` (Python `%` on a
positive modulus is true modulo, like `Int.emod`), then
`h, m = divmod(minutes, 60)` and zero-padded rendering. -/
def hhmm (minutes : ℤ) : String :=
  let m := minutes % DAY_MIN
  pad2 (m / 60) ++ ":" ++ pad2 (m % 60)

/-- The spec's `normalize` (section 4.1): reduce any integer to the
canonical `[0, 1439]` range by true modulo. In the source this reduction
happens inside `hhmm`; `Int.emod` is already nonnegative here, so the
spec's `((x % 1440) + 1440) % 1440` collapses to `x % DAY_MIN`. -/
def normalize (x : ℤ) : ℤ :=
  ((x % DAY_MIN) + DAY_MIN) % DAY_MIN

/-- Record `ScheduleRow` from the source: an immutable record of a day id and the
stored (integer) start/end minutes. -/
structure ScheduleRow where
  day_id : ℤ
  start_min : ℤ
  end_min : ℤ
deriving DecidableEq, Repr

/-- Property `ScheduleRow.start_str` from the source. -/
def ScheduleRow.start_str (r : ScheduleRow) : String := hhmm r.start_min

/-- Property `ScheduleRow.end_str` from the source. -/
def ScheduleRow.end_str (r : ScheduleRow) : String := hhmm r.end_min

/-- Function `window_length` from the source: `L = (b_min - a_min) % DAY_MIN`. -/
def window_length (a_min b_min : ℤ) : ℤ :=
  (b_min - a_min) % DAY_MIN

/-- Function `compute_daily_step` from the source. The interpretation argument is
the raw string, as in the Python code. -/
def compute_daily_step (a_min b_min : ℤ) (days : ℤ) (finish_on_day : String) :
    Except Err ℚ :=
  if days ≤ 0 then .error .invalidDays
  else
    let L := window_length a_min b_min
    if L = 0 then .error .emptyWindow
    else if finish_on_day = "inclusive" then
      if days = 1 then .ok 0
      else .ok ((L : ℚ) / (2 * ((days : ℚ) - 1)))
    else if finish_on_day = "after-steps" then
      .ok ((L : ℚ) / (2 * (days : ℚ)))
    else .error .invalidInterpretation

/-- The local `_round` of `generate_schedule`: `"nearest"` dispatches to
`round_half_away_from_zero`; `"floor"` is `int(x // 1)` (Python float floor
division, i.e. `⌊x / 1⌋`); `"ceil"` is `int(-(-x // 1))`; any other string
raises. -/
def rnd (rounding : String) (x : ℚ) : Except Err ℤ :=
  if rounding = "nearest" then .ok (round_half_away_from_zero x)
  else if rounding = "floor" then .ok ⌊x / 1⌋
  else if rounding = "ceil" then .ok (-⌊(-x) / 1⌋)
  else .error .invalidRounding

/-- Python's `range(1, days + 1)` as a list of integer day indices. -/
def daysList (days : ℤ) : List ℤ :=
  (List.range days.toNat).map (fun i : ℕ => (i : ℤ) + 1)

/-- The loop body of `generate_schedule`, turned into structural recursion
over the list of day indices: for each `d`, `offset = (d - 1) * m`,
`start = _round(a_min + offset)`, `end = _round(b_min - offset)`, and the
row `⟨d, start, end⟩` is appended. A raised rounding error aborts with no
partial result, as a Python exception does. -/
def scheduleRowsAux (a_min b_min : ℤ) (m : ℚ) (rounding : String) :
    List ℤ → Except Err (List ScheduleRow)
  | [] => .ok []
  | d :: ds => do
      let offset : ℚ := ((d : ℚ) - 1) * m
      let s ← rnd rounding ((a_min : ℚ) + offset)
      let e ← rnd rounding ((b_min : ℚ) - offset)
      let rest ← scheduleRowsAux a_min b_min m rounding ds
      pure (⟨d, s, e⟩ :: rest)

/-- Function `generate_schedule` from the source: compute `m`, then run the per-day
loop. The source's `inclusive` and `after-steps` branches have verbatim
identical loop bodies; the branch is kept to mirror the source. -/
def generate_schedule (a_min b_min : ℤ) (days : ℤ)
    (finish_on_day : String := "inclusive") (rounding : String := "nearest") :
    Except Err (List ScheduleRow) := do
  let m ← compute_daily_step a_min b_min days finish_on_day
  if finish_on_day = "inclusive" then
    scheduleRowsAux a_min b_min m rounding (daysList days)
  else
    scheduleRowsAux a_min b_min m rounding (daysList days)

/-- Python's built-in `round` on a float whose fractional part is exactly
`0` or `1/2` (the only values reaching it in `main`): round to nearest,
ties to the even integer (banker's rounding). Embedded exactly because the
floats involved (`a + L/2.0`, magnitudes below `2^11`, halves) are exactly
representable. -/
def pyRound (x : ℚ) : ℤ :=
  if x - ⌊x⌋ < 1/2 then ⌊x⌋
  else if 1/2 < x - ⌊x⌋ then ⌊x⌋ + 1
  else if 2 ∣ ⌊x⌋ then ⌊x⌋ else ⌊x⌋ + 1

/-- Python's float `%` with a positive modulus: `x - 1440 * ⌊x / 1440⌋`
(true modulo, nonnegative result), over exact rationals. -/
def qmod1440 (x : ℚ) : ℚ :=
  x - 1440 * ⌊x / 1440⌋

/-- Value `collapse_min` from `main`: `(start + L / 2.0) % DAY_MIN`. -/
def collapse_min (a_min b_min : ℤ) : ℚ :=
  qmod1440 ((a_min : ℚ) + (window_length a_min b_min : ℚ) / 2)

/-- Value `collapse_hhmm` from `main`: `hhmm(int(round(collapse_min)))`, with
Python's built-in (banker's) `round`. -/
def collapse_hhmm (a_min b_min : ℤ) : String :=
  hhmm (pyRound (collapse_min a_min b_min))

/-- Reference step solver, modelled from the spec's words (section 4.3):
precondition `days` positive else `InvalidDaysError`; `L = 0` fails with
`EmptyWindowError`; `inclusive` gives `0` for one day and `L / (2(days-1))`
otherwise; `after-steps` gives `L / (2·days)`; any other interpretation is
`InvalidInterpretationError`. -/
def computeStep_spec (a b days : ℤ) (interpretation : String) : Except Err ℚ :=
  if 0 < days then
    if window_length a b = 0 then .error .emptyWindow
    else if interpretation = "inclusive" then
      if days = 1 then .ok 0
      else .ok ((window_length a b : ℚ) / (2 * ((days : ℚ) - 1)))
    else if interpretation = "after-steps" then
      .ok ((window_length a b : ℚ) / (2 * (days : ℚ)))
    else .error .invalidInterpretation
  else .error .invalidDays

end TimeWindowShrinker

namespace TimeWindowShrinker

/-! Basic facts about the rounding helpers -/

/-- Dispatch `rnd "nearest"` always succeeds and dispatches to
`round_half_away_from_zero`. -/
lemma rnd_nearest (x : ℚ) :
    rnd "nearest" x = .ok (round_half_away_from_zero x) := rfl

/-- Dispatch `rnd "floor"` always succeeds and computes the true floor. -/
lemma rnd_floor (x : ℚ) : rnd "floor" x = .ok ⌊x⌋ := by
  rw [rnd, if_neg (by decide), if_pos rfl, div_one]

/-- Dispatch `rnd "ceil"` always succeeds and computes the true ceiling:
`-(⌊-x⌋)` is `⌈x⌉`. -/
lemma rnd_ceil (x : ℚ) : rnd "ceil" x = .ok ⌈x⌉ := by
  rw [rnd, if_neg (by decide), if_neg (by decide), if_pos rfl, div_one,
    Int.floor_neg, neg_neg]

/-- Function `round_half_away_from_zero` is within a half of its argument. -/
lemma abs_rhafz_sub_le (x : ℚ) :
    |x - (round_half_away_from_zero x : ℚ)| ≤ 1/2 := by
  rw [round_half_away_from_zero]
  split
  · rw [abs_le]
    constructor
    · have := Int.floor_le (x + 1/2)
      linarith
    · have := Int.lt_floor_add_one (x + 1/2)
      push_cast at this ⊢
      linarith
  · rw [abs_le]
    constructor
    · have := Int.ceil_lt_add_one (x - 1/2)
      push_cast at this ⊢
      linarith
    · have := Int.le_ceil (x - 1/2)
      linarith

/-- An integer within a half of `x` is a nearest integer to `x`. -/
lemma le_dist_int {x : ℚ} {r : ℤ} (h : |x - (r : ℚ)| ≤ 1/2) (n : ℤ) :
    |x - (r : ℚ)| ≤ |x - (n : ℚ)| := by
  rcases eq_or_ne n r with rfl | hne
  · exact le_rfl
  · have h1 : (1 : ℚ) ≤ |(r : ℚ) - (n : ℚ)| := by
      rw [show ((r : ℚ) - (n : ℚ)) = ((r - n : ℤ) : ℚ) by push_cast; ring]
      rw [← Int.cast_abs]
      exact_mod_cast Int.one_le_abs (sub_ne_zero.mpr (fun hc => hne (by omega)))
    have h2 : |(r : ℚ) - (n : ℚ)| ≤ |x - (r : ℚ)| + |x - (n : ℚ)| := by
      have := abs_sub_abs_le_abs_sub ((r : ℚ) - (n : ℚ)) 0
      calc |(r : ℚ) - (n : ℚ)| = |((r : ℚ) - x) + (x - (n : ℚ))| := by ring_nf
        _ ≤ |(r : ℚ) - x| + |x - (n : ℚ)| := abs_add _ _
        _ = |x - (r : ℚ)| + |x - (n : ℚ)| := by rw [abs_sub_comm]
    linarith

/-- Function `round_half_away_from_zero` is the identity on integers. -/
lemma rhafz_intCast (n : ℤ) : round_half_away_from_zero (n : ℚ) = n := by
  rw [round_half_away_from_zero]
  split
  · rw [show ((n : ℚ) + 1/2) = (n : ℚ) + (1/2 : ℚ) by ring, Int.floor_int_add]
    norm_num
  · rw [show ((n : ℚ) - 1/2) = (-(1/2) : ℚ) + (n : ℚ) by ring, Int.ceil_add_int]
    norm_num

/-- Function `round_half_away_from_zero` is monotone. -/
lemma rhafz_mono {x y : ℚ} (h : x ≤ y) :
    round_half_away_from_zero x ≤ round_half_away_from_zero y := by
  rw [round_half_away_from_zero, round_half_away_from_zero]
  rcases le_or_lt 0 x with hx | hx <;> rcases le_or_lt 0 y with hy | hy
  · rw [if_pos hx, if_pos hy]
    exact Int.floor_le_floor (by linarith)
  · linarith
  · rw [if_neg (not_le.mpr hx), if_pos hy]
    calc ⌈x - 1/2⌉ ≤ ⌈-(1/2 : ℚ)⌉ := Int.ceil_le_ceil (by linarith)
      _ = 0 := by
          rw [Int.ceil_eq_iff] <;> norm_num
      _ ≤ ⌊y + 1/2⌋ := by
          rw [Int.le_floor]
          push_cast
          linarith
  · rw [if_neg (not_le.mpr hx), if_neg (not_le.mpr hy)]
    exact Int.ceil_le_ceil (by linarith)

/-- Evaluation rule for `round_half_away_from_zero` on nonnegative inputs. -/
lemma rhafz_eval_nonneg {x : ℚ} {n : ℤ} (h0 : 0 ≤ x)
    (h1 : (n : ℚ) ≤ x + 1/2) (h2 : x + 1/2 < (n : ℚ) + 1) :
    round_half_away_from_zero x = n := by
  rw [round_half_away_from_zero, if_pos h0, Int.floor_eq_iff]
  constructor
  · exact_mod_cast h1
  · push_cast
    exact h2

/-- Evaluation rule for `round_half_away_from_zero` on negative inputs. -/
lemma rhafz_eval_neg {x : ℚ} {n : ℤ} (h0 : ¬ 0 ≤ x)
    (h1 : (n : ℚ) - 1 < x - 1/2) (h2 : x - 1/2 ≤ (n : ℚ)) :
    round_half_away_from_zero x = n := by
  rw [round_half_away_from_zero, if_neg h0, Int.ceil_eq_iff]
  constructor
  · push_cast
    exact h1
  · exact h2

end TimeWindowShrinker

namespace TimeWindowShrinker

/-- Function `pyRound` is within a half of its argument. -/
lemma abs_pyRound_sub_le (x : ℚ) : |x - (pyRound x : ℚ)| ≤ 1/2 := by
  have hf0 : (⌊x⌋ : ℚ) ≤ x := Int.floor_le x
  have hf1 : x < (⌊x⌋ : ℚ) + 1 := Int.lt_floor_add_one x
  rw [pyRound]
  split
  · rw [abs_le]
    constructor <;> linarith
  · split
    · rw [abs_le]
      push_cast
      constructor <;> linarith
    · split <;> rw [abs_le] <;> push_cast <;> constructor <;> linarith

/-- On a tie, `pyRound` returns an even integer. -/
lemma pyRound_even_of_tie {x : ℚ} (h : x - (⌊x⌋ : ℚ) = 1/2) :
    2 ∣ pyRound x := by
  rw [pyRound, if_neg (by rw [h]; norm_num), if_neg (by rw [h]; norm_num)]
  split
  · assumption
  · rename_i hodd
    omega

/-! Window length and step facts -/

/-- Bounds for `window_length` with valid, distinct clock minutes. -/
lemma window_length_pos {a b : ℤ} (ha0 : 0 ≤ a) (ha1 : a ≤ 1439)
    (hb0 : 0 ≤ b) (hb1 : b ≤ 1439) (hab : a ≠ b) :
    1 ≤ window_length a b ∧ window_length a b ≤ 1439 := by
  rw [window_length, DAY_MIN]
  omega

/-- The defining modular relation of `window_length`: for valid clock
minutes, `L = b - a` when the window does not cross midnight and
`L = b - a + 1440` when it does. -/
lemma window_length_cases {a b : ℤ} (ha0 : 0 ≤ a) (ha1 : a ≤ 1439)
    (hb0 : 0 ≤ b) (hb1 : b ≤ 1439) :
    (a ≤ b ∧ window_length a b = b - a) ∨
    (b < a ∧ window_length a b = b - a + 1440) := by
  rw [window_length, DAY_MIN]
  omega

/-- The step returned for the inclusive interpretation with `days ≥ 2`. -/
lemma compute_daily_step_inclusive {a b days : ℤ} (ha0 : 0 ≤ a)
    (ha1 : a ≤ 1439) (hb0 : 0 ≤ b) (hb1 : b ≤ 1439) (hab : a ≠ b)
    (hd : 2 ≤ days) :
    compute_daily_step a b days "inclusive" =
      .ok ((window_length a b : ℚ) / (2 * ((days : ℚ) - 1))) := by
  have hL := window_length_pos ha0 ha1 hb0 hb1 hab
  have h1 : ¬ days ≤ 0 := by omega
  have h2 : ¬ window_length a b = 0 := by omega
  have h3 : ¬ days = 1 := by omega
  rw [compute_daily_step]
  simp [h1, h2, h3]

/-- The step for the inclusive interpretation is nonnegative, and the
cumulative offset on the last generated day is exactly `L / 2`. -/
lemma inclusive_step_facts {a b days : ℤ} (ha0 : 0 ≤ a) (ha1 : a ≤ 1439)
    (hb0 : 0 ≤ b) (hb1 : b ≤ 1439) (hab : a ≠ b) (hd : 2 ≤ days) :
    0 ≤ (window_length a b : ℚ) / (2 * ((days : ℚ) - 1)) ∧
    ((days : ℚ) - 1) * ((window_length a b : ℚ) / (2 * ((days : ℚ) - 1))) =
      (window_length a b : ℚ) / 2 := by
  have hL := window_length_pos ha0 ha1 hb0 hb1 hab
  have hL0 : (0 : ℚ) ≤ (window_length a b : ℚ) := by exact_mod_cast by omega
  have hdq : (2 : ℚ) ≤ (days : ℚ) := by exact_mod_cast hd
  have hne : ((days : ℚ) - 1) ≠ 0 := by
    intro hc
    rw [sub_eq_zero] at hc
    rw [hc] at hdq
    norm_num at hdq
  constructor
  · apply div_nonneg hL0
    nlinarith
  · field_simp
    ring

/-! Characterizing the generated rows -/

/-- If the rounding policy is total (recognized), the per-day loop succeeds
and produces exactly one row per day index, holding the *unnormalized*
rounded start/end values. -/
lemma scheduleRowsAux_ok (a b : ℤ) (m : ℚ) (r : String) (f : ℚ → ℤ)
    (hf : ∀ x, rnd r x = .ok (f x)) :
    ∀ ds : List ℤ, scheduleRowsAux a b m r ds =
      .ok (ds.map (fun d =>
        ⟨d, f ((a : ℚ) + ((d : ℚ) - 1) * m), f ((b : ℚ) - ((d : ℚ) - 1) * m)⟩)) := by
  intro ds
  induction ds with
  | nil => rfl
  | cons d ds ih =>
    rw [scheduleRowsAux]
    rw [List.map_cons]
    simp only [hf, ih]
    rfl

/-- Function `generate_schedule` under a successful step computation and a
recognized rounding policy: one row per day, start/end as rounded raw
values. -/
lemma generate_schedule_ok {a b days : ℤ} {i r : String} {m : ℚ}
    (f : ℚ → ℤ) (hm : compute_daily_step a b days i = .ok m)
    (hf : ∀ x, rnd r x = .ok (f x)) :
    generate_schedule a b days i r =
      .ok ((daysList days).map (fun d =>
        ⟨d, f ((a : ℚ) + ((d : ℚ) - 1) * m), f ((b : ℚ) - ((d : ℚ) - 1) * m)⟩)) := by
  rw [generate_schedule]
  show Except.bind (compute_daily_step a b days i) _ = _
  rw [hm]
  show (if i = "inclusive" then _ else _) = _
  rw [scheduleRowsAux_ok a b m r f hf, ite_self]

end TimeWindowShrinker

namespace TimeWindowShrinker

/-- Row access for a successfully generated schedule: `days.toNat` rows,
the `j`-th (0-based) holding day id `j+1` and the *unnormalized* rounded
start/end with cumulative offset `j·m`. -/
lemma generate_rows_getD {a b days : ℤ} {intp r : String} {m : ℚ}
    (f : ℚ → ℤ) (hm : compute_daily_step a b days intp = .ok m)
    (hf : ∀ x, rnd r x = .ok (f x)) {rows : List ScheduleRow}
    (hrows : generate_schedule a b days intp r = .ok rows) :
    rows.length = days.toNat ∧ ∀ j : ℕ, j < days.toNat →
      rows.getD j ⟨0, 0, 0⟩ =
        ⟨(j : ℤ) + 1, f ((a : ℚ) + (j : ℚ) * m), f ((b : ℚ) - (j : ℚ) * m)⟩ := by
  rw [generate_schedule_ok f hm hf] at hrows
  injection hrows with hrows
  subst hrows
  constructor
  · simp only [List.length_map, daysList, List.length_range]
  · intro j hj
    have hcast : (((j : ℤ) + 1 : ℤ) : ℚ) - 1 = (j : ℚ) := by push_cast; ring
    simp only [daysList, List.map_map, List.getD_eq_getElem?_getD,
      List.getElem?_map, List.getElem?_range hj, Option.map_some,
      Option.map_some', Option.getD_some, Function.comp_apply]
    rw [hcast]

/-- Core monotonicity fact behind the narrowing invariant: for a monotone,
integer-preserving rounding function `f`, consecutive generated rows have
non-increasing `window_length`. The hypothesis `hcase` either forbids
midnight crossing or requires `f` to commute with shifting by a full day
(which the floor and ceil policies do). -/
lemma rows_wl_antitone
    (f : ℚ → ℤ) (hmono : ∀ {x y : ℚ}, x ≤ y → f x ≤ f y)
    (hint : ∀ n : ℤ, f (n : ℚ) = n)
    {a b days : ℤ} (ha0 : 0 ≤ a) (ha1 : a ≤ 1439) (hb0 : 0 ≤ b) (hb1 : b ≤ 1439)
    (hab : a ≠ b) (hd : 2 ≤ days)
    (hcase : a < b ∨ ∀ x : ℚ, f (x - 1440) = f x - 1440)
    {m : ℚ} (hm0 : 0 ≤ m)
    (hmL : ((days : ℚ) - 1) * m = (window_length a b : ℚ) / 2)
    (i : ℕ) (hi : i + 1 < days.toNat) :
    window_length (f ((a : ℚ) + ((i + 1 : ℕ) : ℚ) * m))
        (f ((b : ℚ) - ((i + 1 : ℕ) : ℚ) * m)) ≤
      window_length (f ((a : ℚ) + (i : ℚ) * m)) (f ((b : ℚ) - (i : ℚ) * m)) := by
  have hLb := window_length_pos ha0 ha1 hb0 hb1 hab
  set L := window_length a b with hLdef
  set N : ℕ := days.toNat - 1 with hNdef
  have hiN : i + 1 ≤ N := by omega
  have hNcast : ((N : ℕ) : ℚ) = (days : ℚ) - 1 := by
    have h1 : ((days.toNat : ℕ) : ℤ) = days := Int.toNat_of_nonneg (by omega)
    have h2 : (1 : ℕ) ≤ days.toNat := by omega
    push_cast [hNdef, h2]
    exact_mod_cast congrArg (fun z : ℤ => (z : ℚ) - 1) h1
  have hoffN : ((N : ℕ) : ℚ) * m = (L : ℚ) / 2 := by rw [hNcast]; exact hmL
  -- offsets are monotone in the day index
  have h0u : (0 : ℚ) ≤ (i : ℚ) * m := mul_nonneg (by positivity) hm0
  have huv : (i : ℚ) * m ≤ ((i + 1 : ℕ) : ℚ) * m := by
    apply mul_le_mul_of_nonneg_right _ hm0
    push_cast
    linarith
  have hvw : ((i + 1 : ℕ) : ℚ) * m ≤ ((N : ℕ) : ℚ) * m := by
    apply mul_le_mul_of_nonneg_right _ hm0
    exact_mod_cast hiN
  -- generic bounds on the rounded starts and ends
  have hS01 : f ((a : ℚ) + (i : ℚ) * m) ≤ f ((a : ℚ) + ((i + 1 : ℕ) : ℚ) * m) :=
    hmono (by linarith)
  have hE10 : f ((b : ℚ) - ((i + 1 : ℕ) : ℚ) * m) ≤ f ((b : ℚ) - (i : ℚ) * m) :=
    hmono (by linarith)
  have hSa : a ≤ f ((a : ℚ) + (i : ℚ) * m) := by
    have h := hmono (show ((a : ℤ) : ℚ) ≤ (a : ℚ) + (i : ℚ) * m by linarith)
    rwa [hint] at h
  have hEb : f ((b : ℚ) - (i : ℚ) * m) ≤ b := by
    have h := hmono (show (b : ℚ) - (i : ℚ) * m ≤ ((b : ℤ) : ℚ) by linarith)
    rwa [hint] at h
  have hSN : f ((a : ℚ) + ((i + 1 : ℕ) : ℚ) * m) ≤ f ((a : ℚ) + ((N : ℕ) : ℚ) * m) :=
    hmono (by linarith)
  have hEN : f ((b : ℚ) - ((N : ℕ) : ℚ) * m) ≤ f ((b : ℚ) - ((i + 1 : ℕ) : ℚ) * m) :=
    hmono (by linarith)
  rcases window_length_cases ha0 ha1 hb0 hb1 with ⟨hle, hLeq⟩ | ⟨hlt, hLeq⟩
  · -- no midnight crossing: on the last day start and end coincide exactly
    have hbq : (b : ℚ) = (a : ℚ) + (L : ℚ) := by
      rw [← hLdef] at hLeq
      push_cast [hLeq]
      ring
    have hfin : (b : ℚ) - ((N : ℕ) : ℚ) * m = (a : ℚ) + ((N : ℕ) : ℚ) * m := by
      rw [hoffN, hbq]
      ring
    rw [hfin] at hEN
    simp only [window_length, DAY_MIN]
    omega
  · -- midnight crossing: on the last day the raw end is the raw start
    -- shifted back by one full day
    have hshift : ∀ x : ℚ, f (x - 1440) = f x - 1440 := by
      rcases hcase with hc | hc
      · omega
      · exact hc
    have hbq : (b : ℚ) = (a : ℚ) + (L : ℚ) - 1440 := by
      rw [← hLdef] at hLeq
      push_cast [hLeq]
      ring
    have hfin : (b : ℚ) - ((N : ℕ) : ℚ) * m =
        ((a : ℚ) + ((N : ℕ) : ℚ) * m) - 1440 := by
      rw [hoffN, hbq]
      ring
    have hfinval : f ((b : ℚ) - ((N : ℕ) : ℚ) * m) =
        f ((a : ℚ) + ((N : ℕ) : ℚ) * m) - 1440 := by
      rw [hfin, hshift]
    rw [hfinval] at hEN
    simp only [window_length, DAY_MIN]
    omega

end TimeWindowShrinker

namespace TimeWindowShrinker

/-! Claim theorems -/

/-- Claim C7: `round_half_away_from_zero` returns a nearest integer for
every real input (no integer is strictly closer), ties (fractional part
exactly 1/2) round away from zero (the result's magnitude strictly exceeds
the argument's, by exactly 1/2), and the spec's three examples hold:
2.5 → 3, −2.5 → −3, 2.4 → 2. -/
theorem C7_round_half_away_correct :
    (∀ x : ℚ, ∀ n : ℤ,
      |x - (round_half_away_from_zero x : ℚ)| ≤ |x - (n : ℚ)|) ∧
    (∀ x : ℚ, x - (⌊x⌋ : ℚ) = 1/2 →
      |(round_half_away_from_zero x : ℚ)| = |x| + 1/2) ∧
    round_half_away_from_zero (5/2) = 3 ∧
    round_half_away_from_zero (-5/2) = -3 ∧
    round_half_away_from_zero (12/5) = 2 := by
  refine ⟨fun x n => le_dist_int (abs_rhafz_sub_le x) n, ?_, ?_, ?_, ?_⟩
  · intro x h
    rcases le_or_lt 0 x with hx | hx
    · have hv : round_half_away_from_zero x = ⌊x⌋ + 1 := by
        rw [round_half_away_from_zero, if_pos hx,
          show x + 1/2 = ((⌊x⌋ + 1 : ℤ) : ℚ) by push_cast; linarith,
          Int.floor_intCast]
      rw [hv]
      have hfl0 : (0 : ℚ) ≤ (⌊x⌋ : ℚ) + 1 := by
        have := Int.floor_le x
        linarith
      rw [abs_of_nonneg hx]
      push_cast
      rw [abs_of_nonneg (by push_cast at hfl0 ⊢; linarith)]
      linarith
    · have hv : round_half_away_from_zero x = ⌊x⌋ := by
        rw [round_half_away_from_zero, if_neg (not_le.mpr hx),
          show x - 1/2 = ((⌊x⌋ : ℤ) : ℚ) by linarith, Int.ceil_intCast]
      rw [hv]
      have hfl : (⌊x⌋ : ℚ) = x - 1/2 := by linarith
      rw [hfl, abs_of_neg hx, abs_of_neg (by linarith)]
      ring
  · exact rhafz_eval_nonneg (by norm_num) (by norm_num) (by norm_num)
  · exact rhafz_eval_neg (by norm_num) (by norm_num) (by norm_num)
  · exact rhafz_eval_nonneg (by norm_num) (by norm_num) (by norm_num)

/-- Witness for C7: the tie 5/2 rounds to 3, which is at least as close to
5/2 as the integer 2, and has magnitude 5/2 + 1/2. -/
theorem C7_round_half_away_correct_witness :
    |(5/2 : ℚ) - (round_half_away_from_zero (5/2) : ℚ)| ≤
      |(5/2 : ℚ) - ((2 : ℤ) : ℚ)| ∧
    |(round_half_away_from_zero (5/2) : ℚ)| = |(5/2 : ℚ)| + 1/2 :=
  ⟨C7_round_half_away_correct.1 (5/2) 2,
   C7_round_half_away_correct.2.1 (5/2) (by
    rw [show ⌊(5/2 : ℚ)⌋ = 2 by rw [Int.floor_eq_iff] <;> norm_num]
    norm_num)⟩

/-- Claim C8: the `"floor"` branch of the rounding dispatcher maps every
real x to the greatest integer ≤ x (true floor, also for negative x), and
the `"ceil"` branch to the least integer ≥ x; in particular
floor(−5/2) = −3 and ceil(−5/2) = −2. -/
theorem C8_floor_ceil_policies :
    (∀ x : ℚ, ∀ y : ℤ, rnd "floor" x = .ok y →
      (y : ℚ) ≤ x ∧ ∀ n : ℤ, (n : ℚ) ≤ x → n ≤ y) ∧
    (∀ x : ℚ, ∀ y : ℤ, rnd "ceil" x = .ok y →
      x ≤ (y : ℚ) ∧ ∀ n : ℤ, x ≤ (n : ℚ) → y ≤ n) ∧
    rnd "floor" (-5/2) = .ok (-3) ∧ rnd "ceil" (-5/2) = .ok (-2) := by
  refine ⟨?_, ?_, ?_, ?_⟩
  · intro x y hy
    rw [rnd_floor] at hy
    injection hy with hy
    subst hy
    exact ⟨Int.floor_le x, fun n hn => Int.le_floor.mpr hn⟩
  · intro x y hy
    rw [rnd_ceil] at hy
    injection hy with hy
    subst hy
    exact ⟨Int.le_ceil x, fun n hn => Int.ceil_le.mpr hn⟩
  · rw [rnd_floor, show ⌊(-5/2 : ℚ)⌋ = -3 by rw [Int.floor_eq_iff] <;> push_cast <;> norm_num]
  · rw [rnd_ceil, show ⌈(-5/2 : ℚ)⌉ = -2 by rw [Int.ceil_eq_iff] <;> push_cast <;> norm_num]

/-- Witness for C8: the characterizations instantiated at x = −5/2. -/
theorem C8_floor_ceil_policies_witness :
    ((-3 : ℤ) : ℚ) ≤ (-5/2 : ℚ) ∧ (-3 : ℤ) ≤ (-3 : ℤ) ∧
    (-5/2 : ℚ) ≤ ((-2 : ℤ) : ℚ) ∧ (-2 : ℤ) ≤ (-2 : ℤ) :=
  ⟨(C8_floor_ceil_policies.1 (-5/2) (-3) C8_floor_ceil_policies.2.2.1).1,
   (C8_floor_ceil_policies.1 (-5/2) (-3) C8_floor_ceil_policies.2.2.1).2
     (-3) (by norm_num),
   (C8_floor_ceil_policies.2.1 (-5/2) (-2) C8_floor_ceil_policies.2.2.2).1,
   (C8_floor_ceil_policies.2.1 (-5/2) (-2) C8_floor_ceil_policies.2.2.2).2
     (-2) (by norm_num)⟩

/-- Claim C9: for clock minutes in [0,1439], `window_length` is
`(b − a) mod 1440` with the result in [0,1440), so a window whose end is
numerically earlier than its start gets the positive forward length across
midnight; in particular 22:30 → 05:15 has length 405. -/
theorem C9_window_length_mod (a b : ℤ) (ha0 : 0 ≤ a) (ha1 : a ≤ 1439)
    (hb0 : 0 ≤ b) (hb1 : b ≤ 1439) :
    window_length a b = (b - a) % 1440 ∧
    0 ≤ window_length a b ∧ window_length a b < 1440 ∧
    window_length (22*60 + 30) (5*60 + 15) = 405 := by
  refine ⟨rfl, ?_, ?_, by decide⟩
  · rw [window_length, DAY_MIN]
    omega
  · rw [window_length, DAY_MIN]
    omega

/-- Witness for C9 at the midnight-crossing pair (22:30, 05:15). -/
theorem C9_window_length_mod_witness :
    window_length 1350 315 = (315 - 1350) % 1440 ∧
    0 ≤ window_length 1350 315 ∧ window_length 1350 315 < 1440 ∧
    window_length (22*60 + 30) (5*60 + 15) = 405 :=
  C9_window_length_mod 1350 315 (by norm_num) (by norm_num) (by norm_num)
    (by norm_num)

end TimeWindowShrinker

namespace TimeWindowShrinker

/-- Claim C5: `compute_daily_step` agrees with the spec's reference step
solver `computeStep_spec` on every input, and every successfully returned
step is nonnegative. -/
theorem C5_compute_step_refines :
    (∀ (a b days : ℤ) (intp : String),
      compute_daily_step a b days intp = computeStep_spec a b days intp) ∧
    (∀ (a b days : ℤ) (intp : String) (m : ℚ),
      compute_daily_step a b days intp = .ok m → 0 ≤ m) := by
  constructor
  · intro a b days intp
    rw [compute_daily_step, computeStep_spec]
    rcases le_or_lt days 0 with hd | hd
    · rw [if_pos hd, if_neg (by omega)]
    · rw [if_neg (by omega), if_pos hd]
  · intro a b days intp m hm
    have hL0 : (0 : ℤ) ≤ window_length a b := by
      rw [window_length, DAY_MIN]
      omega
    have hLq : (0 : ℚ) ≤ (window_length a b : ℚ) := by exact_mod_cast hL0
    rw [compute_daily_step] at hm
    dsimp only at hm
    split at hm
    · exact absurd hm (by simp)
    · split at hm
      · exact absurd hm (by simp)
      · split at hm
        · split at hm
          · injection hm with hm
            subst hm
            exact le_rfl
          · have hd2 : (2 : ℚ) ≤ (days : ℚ) := by
              exact_mod_cast (show (2 : ℤ) ≤ days by omega)
            injection hm with hm
            subst hm
            apply div_nonneg hLq
            linarith
        · split at hm
          · have hd1 : (1 : ℚ) ≤ (days : ℚ) := by
              exact_mod_cast (show (1 : ℤ) ≤ days by omega)
            injection hm with hm
            subst hm
            apply div_nonneg hLq
            linarith
          · exact absurd hm (by simp)

/-- Witness for C5 at (540, 1260, 10, inclusive): the step is 40 ≥ 0. -/
theorem C5_compute_step_refines_witness :
    compute_daily_step 540 1260 10 "inclusive" =
      computeStep_spec 540 1260 10 "inclusive" ∧ (0 : ℚ) ≤ 40 := by
  have h40 : compute_daily_step 540 1260 10 "inclusive" = .ok 40 := by
    rw [compute_daily_step_inclusive (by norm_num) (by norm_num) (by norm_num)
      (by norm_num) (by norm_num) (by norm_num),
      show window_length 540 1260 = (720 : ℤ) by decide]
    simp only [Except.ok.injEq]
    norm_num
  exact ⟨C5_compute_step_refines.1 540 1260 10 "inclusive",
    C5_compute_step_refines.2 540 1260 10 "inclusive" 40 h40⟩

/-- Claim C2 counterexample: with equal start and end but `days = 0`,
`generate_schedule` fails with the invalid-days error, not the
empty-window error: the claim's "regardless of days" fails for
non-positive day counts. -/
theorem C2_counterexample :
    generate_schedule 540 540 0 "inclusive" "nearest" =
      .error .invalidDays ∧
    Err.invalidDays ≠ Err.emptyWindow := ⟨rfl, by decide⟩

/-- Claim C2 (amended): a = b fails with `EmptyWindowError` for every
`days ≥ 1` and EVERY interpretation and rounding string; for `days ≤ 0`
the days check fires first and the failure is `InvalidDaysError`. -/
theorem C2_empty_window_amended (a b days : ℤ) (intp rounding : String)
    (hab : a = b) :
    (1 ≤ days →
      generate_schedule a b days intp rounding = .error .emptyWindow) ∧
    (days ≤ 0 →
      generate_schedule a b days intp rounding = .error .invalidDays) := by
  subst hab
  have hL : window_length a a = 0 := by
    rw [window_length, DAY_MIN]
    omega
  constructor
  · intro hd
    have hstep : compute_daily_step a a days intp = .error .emptyWindow := by
      rw [compute_daily_step, if_neg (by omega)]
      simp [hL]
    rw [generate_schedule]
    show Except.bind _ _ = _
    rw [hstep]
    rfl
  · intro hd
    have hstep : compute_daily_step a a days intp = .error .invalidDays := by
      rw [compute_daily_step, if_pos hd]
    rw [generate_schedule]
    show Except.bind _ _ = _
    rw [hstep]
    rfl

/-- Witness for the amended C2: an unrecognized interpretation and
rounding still yield the empty-window error when `days ≥ 1`, and a
negative `days` yields the invalid-days error. -/
theorem C2_empty_window_amended_witness :
    generate_schedule 300 300 5 "garbage" "weird" = .error .emptyWindow ∧
    generate_schedule 300 300 (-2) "inclusive" "nearest" =
      .error .invalidDays :=
  ⟨(C2_empty_window_amended 300 300 5 "garbage" "weird" rfl).1 (by norm_num),
   (C2_empty_window_amended 300 300 (-2) "inclusive" "nearest" rfl).2
     (by norm_num)⟩

end TimeWindowShrinker

namespace TimeWindowShrinker

/-- With valid inputs and a recognized interpretation, the step solver
succeeds. -/
lemma compute_daily_step_isOk {a b days : ℤ} (ha0 : 0 ≤ a) (ha1 : a ≤ 1439)
    (hb0 : 0 ≤ b) (hb1 : b ≤ 1439) (hab : a ≠ b) (hd : 1 ≤ days)
    {intp : String} (hintp : intp = "inclusive" ∨ intp = "after-steps") :
    ∃ m : ℚ, compute_daily_step a b days intp = .ok m := by
  have hL := window_length_pos ha0 ha1 hb0 hb1 hab
  have h0 : ¬ days ≤ 0 := by omega
  have hL0 : ¬ window_length a b = 0 := by omega
  rcases hintp with rfl | rfl
  · rcases eq_or_ne days 1 with h1 | h1
    · refine ⟨0, ?_⟩
      rw [compute_daily_step]
      simp [h0, hL0, h1]
    · refine ⟨(window_length a b : ℚ) / (2 * ((days : ℚ) - 1)), ?_⟩
      rw [compute_daily_step]
      simp [h0, hL0, h1]
  · refine ⟨(window_length a b : ℚ) / (2 * (days : ℚ)), ?_⟩
    rw [compute_daily_step]
    simp [h0, hL0]

/-- Each recognized rounding policy is total and embeds as a monotone,
integer-preserving function. -/
lemma rnd_recognized {rounding : String}
    (hrnd : rounding = "nearest" ∨ rounding = "floor" ∨ rounding = "ceil") :
    ∃ f : ℚ → ℤ, (∀ x, rnd rounding x = .ok (f x)) ∧
      (∀ {x y : ℚ}, x ≤ y → f x ≤ f y) ∧ (∀ n : ℤ, f (n : ℚ) = n) := by
  rcases hrnd with rfl | rfl | rfl
  · exact ⟨round_half_away_from_zero, rnd_nearest,
      fun h => rhafz_mono h, rhafz_intCast⟩
  · exact ⟨fun x => ⌊x⌋, rnd_floor, fun h => Int.floor_le_floor h,
      fun n => Int.floor_intCast n⟩
  · exact ⟨fun x => ⌈x⌉, rnd_ceil, fun h => Int.ceil_le_ceil h,
      fun n => Int.ceil_intCast n⟩

/-- Claim C10: for every valid input — distinct in-range clock minutes,
`days ≥ 1`, recognized interpretation and rounding — generation succeeds
and the first emitted row is exactly `(1, a, b)`: the original window
unchanged, because the day-1 offset is 0 and every rounding policy is the
identity on integers. -/
theorem C10_first_row_unchanged (a b days : ℤ) (intp rounding : String)
    (ha0 : 0 ≤ a) (ha1 : a ≤ 1439) (hb0 : 0 ≤ b) (hb1 : b ≤ 1439)
    (hab : a ≠ b) (hd : 1 ≤ days)
    (hintp : intp = "inclusive" ∨ intp = "after-steps")
    (hrnd : rounding = "nearest" ∨ rounding = "floor" ∨ rounding = "ceil") :
    (generate_schedule a b days intp rounding).map List.head? =
      .ok (some ⟨1, a, b⟩) := by
  obtain ⟨m, hm⟩ := compute_daily_step_isOk ha0 ha1 hb0 hb1 hab hd hintp
  obtain ⟨f, hf, hfmono, hfint⟩ := rnd_recognized hrnd
  rw [generate_schedule_ok f hm hf]
  obtain ⟨k, hk⟩ : ∃ k, days.toNat = k + 1 := ⟨days.toNat - 1, by omega⟩
  rw [daysList, hk, List.range_succ_eq_map, List.map_cons, List.map_cons]
  show Except.ok _ = _
  simp only [Except.ok.injEq, List.head?_cons, Option.some.injEq]
  have h1 : ((((0 : ℕ) : ℤ) + 1 : ℤ) : ℚ) - 1 = 0 := by push_cast; ring
  rw [h1, zero_mul, add_zero, sub_zero, hfint a, hfint b]
  norm_num

/-- Witness for C10 at (540, 1260, 10, inclusive, nearest). -/
theorem C10_first_row_unchanged_witness :
    (generate_schedule 540 1260 10 "inclusive" "nearest").map List.head? =
      .ok (some ⟨1, 540, 1260⟩) :=
  C10_first_row_unchanged 540 1260 10 "inclusive" "nearest" (by norm_num)
    (by norm_num) (by norm_num) (by norm_num) (by norm_num) (by norm_num)
    (Or.inl rfl) (Or.inl rfl)

end TimeWindowShrinker

namespace TimeWindowShrinker

/-- Shifting by a full day does not change the Python float modulo. -/
lemma qmod1440_sub_day (x : ℚ) : qmod1440 (x - 1440) = qmod1440 x := by
  rw [qmod1440, qmod1440,
    show (x - 1440) / 1440 = x / 1440 - 1 by ring, Int.floor_sub_one]
  push_cast
  ring

/-- Claim C1: inclusive interpretation, `days > 1`: the cumulative offset on
the final generated day, `(days−1)·m`, equals exactly `L/2` over exact
rational arithmetic, and the final row's raw (pre-rounding) start
`a + (days−1)·m` and end `b − (days−1)·m` are both congruent to
`a + L/2` modulo 1440 (Python float `%`, embedded as `qmod1440`). -/
theorem C1_final_row_collapse (a b days : ℤ) (ha0 : 0 ≤ a) (ha1 : a ≤ 1439)
    (hb0 : 0 ≤ b) (hb1 : b ≤ 1439) (hab : a ≠ b) (hd : 2 ≤ days) (m : ℚ)
    (hm : compute_daily_step a b days "inclusive" = .ok m) :
    ((days : ℚ) - 1) * m = (window_length a b : ℚ) / 2 ∧
    qmod1440 ((a : ℚ) + ((days : ℚ) - 1) * m) =
      qmod1440 ((a : ℚ) + (window_length a b : ℚ) / 2) ∧
    qmod1440 ((b : ℚ) - ((days : ℚ) - 1) * m) =
      qmod1440 ((a : ℚ) + (window_length a b : ℚ) / 2) := by
  rw [compute_daily_step_inclusive ha0 ha1 hb0 hb1 hab hd] at hm
  injection hm with hm
  subst hm
  have hoff := (inclusive_step_facts ha0 ha1 hb0 hb1 hab hd).2
  refine ⟨hoff, by rw [hoff], ?_⟩
  rw [hoff]
  rcases window_length_cases ha0 ha1 hb0 hb1 with ⟨hle, hLeq⟩ | ⟨hlt, hLeq⟩
  · rw [show (b : ℚ) - (window_length a b : ℚ) / 2 =
      (a : ℚ) + (window_length a b : ℚ) / 2 by
        rw [hLeq]; push_cast; ring]
  · rw [show (b : ℚ) - (window_length a b : ℚ) / 2 =
      ((a : ℚ) + (window_length a b : ℚ) / 2) - 1440 by
        rw [hLeq]; push_cast; ring]
    exact qmod1440_sub_day _

/-- Witness for C1: window 22:30 → 05:15 (L = 405), 2 days: step 405/2,
final-day offset 405/2 = L/2, and both raw endpoints ≡ a + L/2 (mod 1440). -/
theorem C1_final_row_collapse_witness :
    ((2 : ℚ) - 1) * (405/2) = (window_length 1350 315 : ℚ) / 2 ∧
    qmod1440 ((1350 : ℚ) + ((2 : ℚ) - 1) * (405/2)) =
      qmod1440 ((1350 : ℚ) + (window_length 1350 315 : ℚ) / 2) ∧
    qmod1440 ((315 : ℚ) - ((2 : ℚ) - 1) * (405/2)) =
      qmod1440 ((1350 : ℚ) + (window_length 1350 315 : ℚ) / 2) :=
  C1_final_row_collapse 1350 315 2 (by norm_num) (by norm_num) (by norm_num)
    (by norm_num) (by norm_num) (by norm_num) (405/2) (by
      rw [compute_daily_step_inclusive (by norm_num) (by norm_num)
        (by norm_num) (by norm_num) (by norm_num) (by norm_num),
        show window_length 1350 315 = (405 : ℤ) by decide]
      simp only [Except.ok.injEq]
      norm_num)

end TimeWindowShrinker

namespace TimeWindowShrinker

/-- The step for window 22:30 → 05:15 over 2 inclusive days is 405/2. -/
lemma step_1350_315_2 :
    compute_daily_step 1350 315 2 "inclusive" = .ok (405/2 : ℚ) := by
  rw [compute_daily_step_inclusive (by norm_num) (by norm_num) (by norm_num)
    (by norm_num) (by norm_num) (by norm_num),
    show window_length 1350 315 = (405 : ℤ) by decide]
  simp only [Except.ok.injEq]
  norm_num

/-- Claim C3 counterexample: for the midnight-crossing window
22:30 → 05:15 with 2 inclusive days and nearest rounding, the final row
STORES start 1553 — outside the canonical range [0, 1439] — so rows are
not normalized at construction time (1553 would normalize to 113). -/
theorem C3_counterexample :
    generate_schedule 1350 315 2 "inclusive" "nearest" =
      .ok [⟨1, 1350, 315⟩, ⟨2, 1553, 113⟩] ∧
    ¬ ((⟨2, 1553, 113⟩ : ScheduleRow).start_min ≤ 1439) ∧
    normalize 1553 ≠ 1553 := by
  refine ⟨?_, by decide, by decide⟩
  rw [generate_schedule_ok round_half_away_from_zero step_1350_315_2
    rnd_nearest, show daysList 2 = [1, 2] by rfl]
  simp only [List.map_cons, List.map_nil, Except.ok.injEq, List.cons.injEq,
    and_true, ScheduleRow.mk.injEq, true_and]
  refine ⟨⟨?_, ?_⟩, ?_, ?_⟩
  · apply rhafz_eval_nonneg
    all_goals push_cast
    all_goals norm_num
  · apply rhafz_eval_nonneg
    all_goals push_cast
    all_goals norm_num
  · apply rhafz_eval_nonneg
    all_goals push_cast
    all_goals norm_num
  · apply rhafz_eval_nonneg
    all_goals push_cast
    all_goals norm_num

/-- Formatting normalizes: the rendered string depends only on the stored
value modulo one day. -/
lemma hhmm_normalize (x : ℤ) : hhmm (normalize x) = hhmm x := by
  have h : normalize x % DAY_MIN = x % DAY_MIN := by
    rw [normalize, DAY_MIN]
    omega
  rw [hhmm, hhmm, h]

/-- Function `normalize` lands in the canonical clock range. -/
lemma normalize_range (x : ℤ) : 0 ≤ normalize x ∧ normalize x ≤ 1439 := by
  rw [normalize, DAY_MIN]
  omega

/-- Claim C3 (amended): each emitted row stores the ROUNDED RAW start/end
(`round(rawStart)` with no normalization — the stored values may lie
outside [0, 1439]); reduction to the canonical range happens only at
formatting time, where the rendered string equals that of the normalized
value, which does lie in [0, 1439]. -/
theorem C3_rows_store_raw_amended (a b days : ℤ) (intp rounding : String)
    (m : ℚ) (f : ℚ → ℤ)
    (hm : compute_daily_step a b days intp = .ok m)
    (hf : ∀ x : ℚ, rnd rounding x = .ok (f x)) :
    generate_schedule a b days intp rounding =
      .ok ((daysList days).map (fun d =>
        ⟨d, f ((a : ℚ) + ((d : ℚ) - 1) * m),
          f ((b : ℚ) - ((d : ℚ) - 1) * m)⟩)) ∧
    ∀ r : ScheduleRow, r.start_str = hhmm (normalize r.start_min) ∧
      r.end_str = hhmm (normalize r.end_min) ∧
      0 ≤ normalize r.start_min ∧ normalize r.start_min ≤ 1439 :=
  ⟨generate_schedule_ok f hm hf, fun r =>
    ⟨(hhmm_normalize r.start_min).symm, (hhmm_normalize r.end_min).symm,
     (normalize_range r.start_min).1, (normalize_range r.start_min).2⟩⟩

/-- Witness for the amended C3, at the same midnight-crossing input, with
the formatting facts instantiated at the out-of-range stored row. -/
theorem C3_rows_store_raw_amended_witness :
    generate_schedule 1350 315 2 "inclusive" "nearest" =
      .ok ((daysList 2).map (fun d =>
        ⟨d, round_half_away_from_zero ((1350 : ℚ) + ((d : ℚ) - 1) * (405/2)),
          round_half_away_from_zero ((315 : ℚ) - ((d : ℚ) - 1) * (405/2))⟩)) ∧
    (⟨2, 1553, 113⟩ : ScheduleRow).start_str = hhmm (normalize 1553) ∧
    0 ≤ normalize 1553 ∧ normalize 1553 ≤ 1439 :=
  ⟨(C3_rows_store_raw_amended 1350 315 2 "inclusive" "nearest" (405/2)
      round_half_away_from_zero step_1350_315_2 rnd_nearest).1,
   ((C3_rows_store_raw_amended 1350 315 2 "inclusive" "nearest" (405/2)
      round_half_away_from_zero step_1350_315_2 rnd_nearest).2
      ⟨2, 1553, 113⟩).1,
   ((C3_rows_store_raw_amended 1350 315 2 "inclusive" "nearest" (405/2)
      round_half_away_from_zero step_1350_315_2 rnd_nearest).2
      ⟨2, 1553, 113⟩).2.2.1,
   ((C3_rows_store_raw_amended 1350 315 2 "inclusive" "nearest" (405/2)
      round_half_away_from_zero step_1350_315_2 rnd_nearest).2
      ⟨2, 1553, 113⟩).2.2.2⟩

end TimeWindowShrinker

namespace TimeWindowShrinker

/-- The summary's raw collapse instant for the window 00:00 → 00:21. -/
lemma collapse_min_0_21 : collapse_min 0 21 = 21/2 := by
  rw [collapse_min, show window_length 0 21 = (21 : ℤ) by decide, qmod1440,
    show ((0 : ℤ) : ℚ) + ((21 : ℤ) : ℚ) / 2 = 21/2 by push_cast; norm_num,
    show (21 : ℚ) / 2 / 1440 = 21/2880 by norm_num,
    show ⌊(21/2880 : ℚ)⌋ = 0 by rw [Int.floor_eq_iff]; norm_num]
  norm_num

/-- Python's banker's round sends the tie 21/2 to the even integer 10. -/
lemma pyRound_21_2 : pyRound (21/2 : ℚ) = 10 := by
  have hf : ⌊(21/2 : ℚ)⌋ = 10 := by
    rw [Int.floor_eq_iff]
    norm_num
  rw [pyRound, hf, if_neg (by norm_num), if_neg (by norm_num),
    if_pos (by norm_num)]

/-- Claim C6 counterexample: for the window 00:00 → 00:21 (L = 21, odd), the
summary reports "00:10" — Python's built-in `round` sends the tie 10.5 to
the even integer 10 — while the claim's round-half-away-from-zero midpoint
would be "00:11". -/
theorem C6_counterexample :
    collapse_hhmm 0 21 = "00:10" ∧
    hhmm (round_half_away_from_zero
      ((0 : ℚ) + (window_length 0 21 : ℚ) / 2)) = "00:11" ∧
    ("00:10" : String) ≠ "00:11" := by
  refine ⟨?_, ?_, by decide⟩
  · rw [collapse_hhmm, collapse_min_0_21, pyRound_21_2]
    decide
  · rw [show window_length 0 21 = (21 : ℤ) by decide,
      show (0 : ℚ) + ((21 : ℤ) : ℚ) / 2 = 21/2 by push_cast; norm_num,
      show round_half_away_from_zero (21/2 : ℚ) = 11 from
        rhafz_eval_nonneg (by norm_num) (by norm_num) (by norm_num)]
    decide

/-- Claim C6 (amended): the summary's collapse instant is
`format(pythonRound((start + L/2) mod 1440))`, where Python's built-in
`round` rounds to a nearest integer with TIES TO EVEN (banker's rounding),
not away from zero: no integer is strictly closer to the raw midpoint than
the reported one, and on a tie (odd L) the even neighbour is reported. -/
theorem C6_collapse_banker_amended (a b : ℤ) :
    collapse_hhmm a b = hhmm (pyRound (collapse_min a b)) ∧
    (∀ n : ℤ, |collapse_min a b - (pyRound (collapse_min a b) : ℚ)| ≤
      |collapse_min a b - (n : ℚ)|) ∧
    (collapse_min a b - (⌊collapse_min a b⌋ : ℚ) = 1/2 →
      2 ∣ pyRound (collapse_min a b)) :=
  ⟨rfl, fun n => le_dist_int (abs_pyRound_sub_le _) n,
   fun h => pyRound_even_of_tie h⟩

/-- Witness for the amended C6 at the window 00:00 → 00:21: the reported
integer 10 is a nearest integer to the tied midpoint 10.5 and is even. -/
theorem C6_collapse_banker_amended_witness :
    collapse_hhmm 0 21 = hhmm (pyRound (collapse_min 0 21)) ∧
    |collapse_min 0 21 - (pyRound (collapse_min 0 21) : ℚ)| ≤
      |collapse_min 0 21 - ((11 : ℤ) : ℚ)| ∧
    2 ∣ pyRound (collapse_min 0 21) :=
  ⟨(C6_collapse_banker_amended 0 21).1,
   (C6_collapse_banker_amended 0 21).2.1 11,
   (C6_collapse_banker_amended 0 21).2.2 (by
    rw [collapse_min_0_21, show ⌊(21/2 : ℚ)⌋ = 10 by
      rw [Int.floor_eq_iff]; norm_num]
    norm_num)⟩

end TimeWindowShrinker

namespace TimeWindowShrinker

/-- The step for window 23:39 → 00:00 over 2 inclusive days is 21/2. -/
lemma step_1419_0_2 :
    compute_daily_step 1419 0 2 "inclusive" = .ok (21/2 : ℚ) := by
  rw [compute_daily_step_inclusive (by norm_num) (by norm_num) (by norm_num)
    (by norm_num) (by norm_num) (by norm_num),
    show window_length 1419 0 = (21 : ℤ) by decide]
  simp only [Except.ok.injEq]
  norm_num

/-- Claim C4 counterexample: window 23:39 → 00:00 (crossing midnight,
L = 21), 2 inclusive days, nearest rounding: the raw final end −10.5 is a
negative tie and rounds away from zero to −11 while the raw final start
1429.5 rounds up to 1430, so the final row's `window_length` is 1439 —
strictly GREATER than the first row's 21. -/
theorem C4_counterexample :
    generate_schedule 1419 0 2 "inclusive" "nearest" =
      .ok [⟨1, 1419, 0⟩, ⟨2, 1430, -11⟩] ∧
    window_length 1419 0 = 21 ∧
    window_length 1430 (-11) = 1439 ∧
    ¬ (window_length 1430 (-11) ≤ window_length 1419 0) := by
  refine ⟨?_, by decide, by decide, by decide⟩
  rw [generate_schedule_ok round_half_away_from_zero step_1419_0_2
    rnd_nearest, show daysList 2 = [1, 2] by rfl]
  simp only [List.map_cons, List.map_nil, Except.ok.injEq, List.cons.injEq,
    and_true, ScheduleRow.mk.injEq, true_and]
  refine ⟨⟨?_, ?_⟩, ?_, ?_⟩
  · apply rhafz_eval_nonneg
    all_goals push_cast
    all_goals norm_num
  · apply rhafz_eval_nonneg
    all_goals push_cast
    all_goals norm_num
  · apply rhafz_eval_nonneg
    all_goals push_cast
    all_goals norm_num
  · apply rhafz_eval_neg
    all_goals push_cast
    all_goals norm_num

/-- Claim C4 (amended): for the inclusive interpretation with `days > 1`,
consecutive generated rows have non-increasing `window_length` under the
`floor` and `ceil` policies for every valid window, and under `nearest`
for windows that do not cross midnight (`a < b`). (With `nearest` on a
crossing window the length can increase at the collapse row, when the raw
end is a negative tie — see the counterexample.) -/
theorem C4_window_antitone_amended (a b days : ℤ) (rounding : String)
    (ha0 : 0 ≤ a) (ha1 : a ≤ 1439) (hb0 : 0 ≤ b) (hb1 : b ≤ 1439)
    (hab : a ≠ b) (hd : 2 ≤ days)
    (hpol : rounding = "floor" ∨ rounding = "ceil" ∨
      (rounding = "nearest" ∧ a < b))
    (rows : List ScheduleRow)
    (hrows : generate_schedule a b days "inclusive" rounding = .ok rows)
    (i : ℕ) (hi : i + 1 < rows.length) :
    window_length (rows.getD (i+1) ⟨0, 0, 0⟩).start_min
        (rows.getD (i+1) ⟨0, 0, 0⟩).end_min ≤
      window_length (rows.getD i ⟨0, 0, 0⟩).start_min
        (rows.getD i ⟨0, 0, 0⟩).end_min := by
  obtain ⟨f, hf, hfmono, hfint, hfcase⟩ :
      ∃ f : ℚ → ℤ, (∀ x, rnd rounding x = .ok (f x)) ∧
        (∀ {x y : ℚ}, x ≤ y → f x ≤ f y) ∧ (∀ n : ℤ, f (n : ℚ) = n) ∧
        (a < b ∨ ∀ x : ℚ, f (x - 1440) = f x - 1440) := by
    rcases hpol with rfl | rfl | ⟨rfl, hab2⟩
    · exact ⟨fun x => ⌊x⌋, rnd_floor, fun h => Int.floor_le_floor h,
        fun n => Int.floor_intCast n,
        Or.inr (fun x => by
          show ⌊x - 1440⌋ = ⌊x⌋ - 1440
          rw [show (1440 : ℚ) = ((1440 : ℤ) : ℚ) by norm_num,
            Int.floor_sub_int])⟩
    · exact ⟨fun x => ⌈x⌉, rnd_ceil, fun h => Int.ceil_le_ceil h,
        fun n => Int.ceil_intCast n,
        Or.inr (fun x => by
          show ⌈x - 1440⌉ = ⌈x⌉ - 1440
          rw [show (1440 : ℚ) = ((1440 : ℤ) : ℚ) by norm_num,
            Int.ceil_sub_int])⟩
    · exact ⟨round_half_away_from_zero, rnd_nearest, fun h => rhafz_mono h,
        rhafz_intCast, Or.inl hab2⟩
  have hm := compute_daily_step_inclusive ha0 ha1 hb0 hb1 hab hd
  obtain ⟨hlen, hget⟩ := generate_rows_getD f hm hf hrows
  rw [hlen] at hi
  rw [hget (i+1) hi, hget i (by omega)]
  have hstep := inclusive_step_facts ha0 ha1 hb0 hb1 hab hd
  exact rows_wl_antitone f hfmono hfint ha0 ha1 hb0 hb1 hab hd hfcase
    hstep.1 hstep.2 i hi

end TimeWindowShrinker

namespace TimeWindowShrinker

/-- The step for window 09:00 → 21:00 over 3 inclusive days is 180. -/
lemma step_540_1260_3 :
    compute_daily_step 540 1260 3 "inclusive" = .ok (180 : ℚ) := by
  rw [compute_daily_step_inclusive (by norm_num) (by norm_num) (by norm_num)
    (by norm_num) (by norm_num) (by norm_num),
    show window_length 540 1260 = (720 : ℤ) by decide]
  simp only [Except.ok.injEq]
  norm_num

/-- The schedule for 09:00 → 21:00, 3 inclusive days, floor rounding. -/
lemma rows_540_1260_3_floor :
    generate_schedule 540 1260 3 "inclusive" "floor" =
      .ok [⟨1, 540, 1260⟩, ⟨2, 720, 1080⟩, ⟨3, 900, 900⟩] := by
  rw [generate_schedule_ok (fun x => ⌊x⌋) step_540_1260_3 rnd_floor,
    show daysList 3 = [1, 2, 3] by rfl]
  simp only [List.map_cons, List.map_nil, Except.ok.injEq, List.cons.injEq,
    and_true, ScheduleRow.mk.injEq, true_and]
  refine ⟨⟨?_, ?_⟩, ⟨?_, ?_⟩, ?_, ?_⟩
  all_goals rw [Int.floor_eq_iff]
  all_goals push_cast
  all_goals norm_num

/-- Witness for the amended C4: rows 1 and 2 of the floor-rounded schedule
for 09:00 → 21:00 over 3 inclusive days. -/
theorem C4_window_antitone_amended_witness :
    window_length 720 1080 ≤ window_length 540 1260 :=
  C4_window_antitone_amended 540 1260 3 "floor" (by norm_num) (by norm_num)
    (by norm_num) (by norm_num) (by norm_num) (by norm_num) (Or.inl rfl)
    [⟨1, 540, 1260⟩, ⟨2, 720, 1080⟩, ⟨3, 900, 900⟩] rows_540_1260_3_floor
    0 (by norm_num)

end TimeWindowShrinker
